import Mathlib

/-!
# Verification of `ipv6-parse` (`src/ipv6.c`)

Shallow embedding of the single source file `src/ipv6.c`: a table-driven
state-machine parser for textual IPv6 endpoints, the zero-run expander, the
canonical formatter and the comparator.

Modelling conventions:

* C machine integers are modelled as `Nat` with explicit `% 2^32` (resp.
  `% 2^16`, `% 2^8`) exactly where the C code can overflow or truncates by a
  cast; `int32_t` comparisons go through `toInt32` (two's-complement
  reinterpretation).
* The C parser marks tokens by `token_position`/`token_len` into the input
  buffer and the token readers re-read that slice.  Tokens are always slices
  of consecutive already-consumed bytes, so the state here carries the token
  slice itself (`token : List Char`); `BEGIN_TOKEN` becomes `token := []`
  (or `[c]` when the current byte is the first token byte) and `token_len++`
  becomes appending the current byte.  The bounds `VALIDATE` at the top of the
  token readers (`token_position + token_len <= input_bytes`) is vacuously
  true in this representation and has no branch here.
* The diagnostic callback is modelled by accumulating the reported events in
  `diags`; `ipv6_error` appends one event, sets `FLAG_ERROR` and latches the
  state to `STATE_ERROR`, exactly like the C helper.
* The embedded-IPv4 octet writes go through byte aliasing
  (`uint8_t* embedding = (uint8_t*)&components[v4_embedding]`).  We model a
  little-endian host: byte 0 of a 16-bit component is its low-order byte.
  The formatter reads the octets back through the same aliasing.
* Null pointers (`!input`, `!out`, `!in`) have no model; the `!*input`
  empty-string test is modelled on the byte list.
-/

set_option maxRecDepth 10000

/-- `IPV6_NUM_COMPONENTS` -/
def IPV6_NUM_COMPONENTS : Nat := 8

/-- `IPV6_STRING_SIZE = sizeof "[1234:...:1234/128%longinterface]:65535"` (65 chars + NUL). -/
def IPV6_STRING_SIZE : Nat := 66

/-- Modelled from the spec: the public header `ipv6.h` is not under `src/`;
the spec describes `flags` as the set `{has_mask, has_port, ipv4_embed}`
stored in a machine word.  We fix the three bits; only their distinctness
matters to any claim. -/
def IPV6_FLAG_HAS_MASK : Nat := 1

/-- Modelled from the spec (see `IPV6_FLAG_HAS_MASK`). -/
def IPV6_FLAG_HAS_PORT : Nat := 2

/-- Modelled from the spec (see `IPV6_FLAG_HAS_MASK`). -/
def IPV6_FLAG_IPV4_EMBED : Nat := 4

/-- The diagnostic event kinds (`ipv6_diag_event_t`). -/
inductive DiagEvent where
  | invalidInput
  | invalidInputChar
  | stringSizeExceeded
  | invalidBrackets
  | invalidAbbrev
  | invalidDecimalToken
  | invalidHexToken
  | v6BadComponentCount
  | v6ComponentOutOfRange
  | v4BadComponentCount
  | v4ComponentOutOfRange
  | ipv4RequiredBits
  | ipv4IncorrectPosition
  | invalidIpv4Embedding
  | invalidCidrMask
  | invalidPort
  deriving DecidableEq, Repr

/-- Parser states (`state_t`).  `STATE_ZERORUN` is declared in the C enum but
never assigned; it behaves like the `default` branch of the transition switch. -/
inductive PState where
  | STATE_NONE
  | STATE_ADDR_COMPONENT
  | STATE_V6_SEPARATOR
  | STATE_ZERORUN
  | STATE_CIDR
  | STATE_IFACE
  | STATE_PORT
  | STATE_POST_ADDR
  | STATE_ERROR
  deriving DecidableEq, Repr

/-- Character event classes (`eventclass_t`). -/
inductive EventClass where
  | EC_DIGIT
  | EC_HEX_DIGIT
  | EC_V4_COMPONENT_SEP
  | EC_V6_COMPONENT_SEP
  | EC_CIDR_MASK
  | EC_IFACE
  | EC_OPEN_BRACKET
  | EC_CLOSE_BRACKET
  | EC_WHITESPACE
  deriving DecidableEq, Repr

/-- `ipv6_address_full_t`: eight 16-bit components, a 16-bit port, a 32-bit
mask and the flag word.  (The zone text is never stored by this version of
the code: `STATE_IFACE` only changes state.) -/
structure Ipv6AddressFull where
  components : List Nat := List.replicate 8 0
  port : Nat := 0
  mask : Nat := 0
  flags : Nat := 0
  deriving DecidableEq, Repr

/-- `ipv6_reader_state_t`.  `position`, `input`, `input_bytes`,
`token_position` and `token_len` are represented by the accumulated token
slice `token` (see the module comment); the never-read `separator` counter is
kept for fidelity.  `diags` models the sequence of diagnostic callback
invocations. -/
structure ReaderState where
  addressFull : Ipv6AddressFull := {}
  current : PState := .STATE_NONE
  components : Nat := 0
  token : List Char := []
  separator : Nat := 0
  brackets : Nat := 0
  zerorun : Nat := 0
  v4Embedding : Nat := 0
  v4Octets : Nat := 0
  flagZerorun : Bool := false
  flagError : Bool := false
  flagIpv4Embedding : Bool := false
  diags : List DiagEvent := []
  deriving DecidableEq, Repr

/-- Two's-complement reinterpretation of a 32-bit pattern. -/
def toInt32 (n : Nat) : Int :=
  if n % 4294967296 < 2147483648 then ((n % 4294967296 : Nat) : Int)
  else ((n % 4294967296 : Nat) : Int) - 4294967296

/-- 32-bit unsigned subtraction (wraps), as in `a->flags - b->flags`. -/
def u32sub (a b : Nat) : Nat := (a % 4294967296 + (4294967296 - b % 4294967296)) % 4294967296

/-- `ipv6_error`: report one diagnostic, set `FLAG_ERROR`, latch `STATE_ERROR`. -/
def ipv6_error (st : ReaderState) (ev : DiagEvent) : ReaderState :=
  { st with diags := st.diags ++ [ev], flagError := true, current := .STATE_ERROR }

def isDecDigitChar (c : Char) : Bool := '0' ≤ c && c ≤ '9'

def decDigitVal (c : Char) : Nat := c.toNat - 48

/-- Hex digit value per the `switch` in `read_hexidecimal_token`;
`none` is the `default:` (non-hex) case. -/
def hexDigitVal (c : Char) : Option Nat :=
  if isDecDigitChar c then some (c.toNat - 48)
  else if 'a' ≤ c && c ≤ 'f' then some (10 + (c.toNat - 97))
  else if 'A' ≤ c && c ≤ 'F' then some (10 + (c.toNat - 65))
  else none

/-- The accumulation loop of `read_decimal_token`: 32-bit accumulator,
`accumulate = accumulate * 10 + digit`; a non-decimal byte stops the loop
with an error (`Bool` = error happened) and value 0. -/
def read_decimal_loop (acc : Nat) : List Char → Nat × Bool
  | [] => (acc, false)
  | c :: cs =>
    if isDecDigitChar c then read_decimal_loop ((acc * 10 + decDigitVal c) % 4294967296) cs
    else (0, true)

/-- `read_decimal_token`: on a non-decimal byte the C code calls
`ipv6_error(state, IPV6_DIAG_INVALID_INPUT, ...)` and returns 0. -/
def read_decimal_token (st : ReaderState) : ReaderState × Nat :=
  match read_decimal_loop 0 st.token with
  | (v, false) => (st, v)
  | (_, true) => (ipv6_error st .invalidInput, 0)

/-- The accumulation loop of `read_hexidecimal_token`:
`accumulate = (accumulate << 4) | digit` on a 32-bit accumulator. -/
def read_hex_loop (acc : Nat) : List Char → Nat × Bool
  | [] => (acc, false)
  | c :: cs =>
    match hexDigitVal c with
    | some d => read_hex_loop ((acc * 16 + d) % 4294967296) cs
    | none => (0, true)

/-- `read_hexidecimal_token`. -/
def read_hexidecimal_token (st : ReaderState) : ReaderState × Nat :=
  match read_hex_loop 0 st.token with
  | (v, false) => (st, v)
  | (_, true) => (ipv6_error st .invalidInput, 0)

/-- Replace one byte of a 16-bit component through the little-endian aliasing
`uint8_t* embedding = (uint8_t*)&components[...]`: byte 0 is the low-order
byte of the word. -/
def setWordByteLE (w : Nat) (j : Nat) (v : Nat) : Nat :=
  if j = 0 then (w / 256) * 256 + v else w % 256 + 256 * v

/-- `embedding[k] = v` where `embedding` aliases the bytes of
`components[base]` and `components[base+1]` (little-endian host). -/
def setByteLE (comps : List Nat) (base k v : Nat) : List Nat :=
  let wi := base + k / 2
  comps.set wi (setWordByteLE (comps.getD wi 0) (k % 2) v)

/-- `ipv6_parse_component`: commit the current token as a 16-bit component. -/
def ipv6_parse_component (st0 : ReaderState) : ReaderState :=
  let p := read_hexidecimal_token st0
  let st := p.1
  let component := p.2
  if ¬ st.components < 8 then ipv6_error st .v6BadComponentCount
  else if ¬ toInt32 component ≤ 0xffff then ipv6_error st .v6ComponentOutOfRange
  else
    { st with
      addressFull := { st.addressFull with
        components := st.addressFull.components.set st.components (component % 65536) }
      components := st.components + 1
      token := [] }

/-- `ipv4_parse_component`: commit the current token as an embedded-IPv4 octet. -/
def ipv4_parse_component (st0 : ReaderState) : ReaderState :=
  let p := read_decimal_token st0
  let st := p.1
  let component := p.2
  if ¬ st.v4Octets < 4 then ipv6_error st .v4BadComponentCount
  else if ¬ toInt32 component ≤ 0xff then ipv6_error st .v4ComponentOutOfRange
  else if ¬ st.v4Embedding ≤ 6 then ipv6_error st .ipv4RequiredBits
  else
    { st with
      addressFull := { st.addressFull with
        components := setByteLE st.addressFull.components st.v4Embedding st.v4Octets (component % 256) }
      v4Octets := st.v4Octets + 1
      token := [] }

/-- `ipvx_parse_component`. -/
def ipvx_parse_component (st : ReaderState) : ReaderState :=
  if st.flagIpv4Embedding then ipv4_parse_component st else ipv6_parse_component st

/-- `ipvx_parse_cidr`: commit the CIDR token (`mask > -1 && mask < 129`). -/
def ipvx_parse_cidr (st0 : ReaderState) : ReaderState :=
  let p := read_decimal_token st0
  let st := p.1
  let mask := p.2
  if ¬ (toInt32 mask > -1 ∧ toInt32 mask < 129) then ipv6_error st .invalidCidrMask
  else
    { st with addressFull := { st.addressFull with
        mask := mask % 4294967296
        flags := st.addressFull.flags ||| IPV6_FLAG_HAS_MASK } }

/-- `ipvx_parse_port`: commit the port token (`port > -1 && port <= 0xffff`). -/
def ipvx_parse_port (st0 : ReaderState) : ReaderState :=
  let p := read_decimal_token st0
  let st := p.1
  let port := p.2
  if ¬ (toInt32 port > -1 ∧ toInt32 port ≤ 0xffff) then ipv6_error st .invalidPort
  else
    { st with addressFull := { st.addressFull with
        port := port % 65536
        flags := st.addressFull.flags ||| IPV6_FLAG_HAS_PORT } }

/-- `ipv6_state_transition`.  The extra `c : Char` argument stands for the
byte currently being processed; the C code reaches it through
`token_position`/`token_len`, here it is appended to the token slice on the
`token_len++` branches (it is ignored by every other branch, and the
synthesized end-of-input `EC_WHITESPACE` event passes a blank). -/
def ipv6_state_transition (st : ReaderState) (input : EventClass) (c : Char) : ReaderState :=
  match st.current with
  | .STATE_ERROR => st
  | .STATE_ZERORUN => st
  | .STATE_NONE =>
    match input with
    | .EC_DIGIT | .EC_HEX_DIGIT =>
      { st with current := .STATE_ADDR_COMPONENT, token := [c] }
    | .EC_OPEN_BRACKET =>
      if ¬ st.brackets = 1 then ipv6_error st .invalidBrackets else st
    | .EC_CLOSE_BRACKET => { st with current := .STATE_POST_ADDR }
    | .EC_V6_COMPONENT_SEP => { st with current := .STATE_V6_SEPARATOR }
    | .EC_CIDR_MASK => { st with current := .STATE_CIDR, token := [] }
    | .EC_WHITESPACE => st
    | _ => ipv6_error st .invalidInput
  | .STATE_ADDR_COMPONENT =>
    match input with
    | .EC_DIGIT | .EC_HEX_DIGIT => { st with token := st.token ++ [c] }
    | .EC_CLOSE_BRACKET =>
      let st := ipvx_parse_component st
      { st with current := .STATE_POST_ADDR }
    | .EC_WHITESPACE =>
      let st := ipvx_parse_component st
      { st with current := .STATE_NONE }
    | .EC_V6_COMPONENT_SEP =>
      if ¬ st.flagIpv4Embedding = false then ipv6_error st .ipv4IncorrectPosition
      else
        let st := ipvx_parse_component st
        { st with current := .STATE_V6_SEPARATOR }
    | .EC_V4_COMPONENT_SEP =>
      if ¬ st.flagIpv4Embedding then
        let st := { st with v4Embedding := st.components, flagIpv4Embedding := true }
        if ¬ st.components < 7 then ipv6_error st .ipv4RequiredBits
        else
          let st := { st with components := st.components + 2 }
          let st := ipvx_parse_component st
          { st with current := .STATE_NONE }
      else
        let st := ipvx_parse_component st
        { st with current := .STATE_NONE }
    | .EC_IFACE =>
      let st := ipvx_parse_component st
      { st with current := .STATE_IFACE }
    | .EC_CIDR_MASK =>
      let st := ipvx_parse_component st
      { st with current := .STATE_CIDR, token := [] }
    | _ => ipv6_error st .invalidInput
  | .STATE_V6_SEPARATOR =>
    match input with
    | .EC_V6_COMPONENT_SEP =>
      if ¬ st.flagZerorun = false then ipv6_error st .invalidAbbrev
      else
        { st with zerorun := st.components, flagZerorun := true, current := .STATE_NONE }
    | .EC_WHITESPACE => { st with current := .STATE_NONE }
    | .EC_DIGIT | .EC_HEX_DIGIT =>
      { st with current := .STATE_ADDR_COMPONENT, token := [c] }
    | .EC_IFACE => { st with current := .STATE_IFACE }
    | .EC_CIDR_MASK => { st with current := .STATE_CIDR, token := [] }
    | _ => ipv6_error st .invalidInput
  | .STATE_IFACE =>
    match input with
    | .EC_WHITESPACE => { st with current := .STATE_NONE }
    | .EC_CLOSE_BRACKET => { st with current := .STATE_POST_ADDR }
    | _ => st
  | .STATE_CIDR =>
    match input with
    | .EC_DIGIT => { st with token := st.token ++ [c] }
    | .EC_CLOSE_BRACKET =>
      let st := ipvx_parse_cidr st
      { st with current := .STATE_POST_ADDR }
    | .EC_WHITESPACE =>
      let st := ipvx_parse_cidr st
      { st with current := .STATE_NONE }
    | .EC_IFACE =>
      let st := ipvx_parse_cidr st
      -- `CHANGE_STATE(EC_IFACE)`: the enum value `EC_IFACE` (5) coincides
      -- with `STATE_IFACE` (5), so the effect is a transition to the
      -- interface state.
      { st with current := .STATE_IFACE }
    | _ => ipv6_error st .invalidInput
  | .STATE_POST_ADDR =>
    match input with
    | .EC_WHITESPACE => st
    | .EC_V6_COMPONENT_SEP => { st with current := .STATE_PORT, token := [] }
    | _ => ipv6_error st .invalidInput
  | .STATE_PORT =>
    match input with
    | .EC_DIGIT => { st with token := st.token ++ [c] }
    | .EC_WHITESPACE =>
      let st := ipvx_parse_port st
      { st with current := .STATE_NONE }
    | _ => ipv6_error st .invalidInput

def nulChar : Char := Char.ofNat 0

/-- One iteration of the character dispatch `switch (*cp)` in
`ipv6_from_str_diag` (the open bracket increments the counter before its
event is dispatched; an unclassifiable byte is `IPV6_DIAG_INVALID_INPUT_CHAR`). -/
def ipv6_step (st : ReaderState) (c : Char) : ReaderState :=
  if isDecDigitChar c then ipv6_state_transition st .EC_DIGIT c
  else if ('a' ≤ c && c ≤ 'f') || ('A' ≤ c && c ≤ 'F') then
    ipv6_state_transition st .EC_HEX_DIGIT c
  else if c = ':' then ipv6_state_transition st .EC_V6_COMPONENT_SEP c
  else if c = '.' then ipv6_state_transition st .EC_V4_COMPONENT_SEP c
  else if c = '/' then ipv6_state_transition st .EC_CIDR_MASK c
  else if c = '%' then ipv6_state_transition st .EC_IFACE c
  else if c = '[' then
    ipv6_state_transition { st with brackets := st.brackets + 1 } .EC_OPEN_BRACKET c
  else if c = ']' then ipv6_state_transition st .EC_CLOSE_BRACKET c
  else if c = ' ' || c = '\t' || c = '\n' || c = '\r' then
    ipv6_state_transition st .EC_WHITESPACE c
  else ipv6_error st .invalidInputChar

/-- The main loop `while (*cp && cp < ep)`: stops at a NUL byte or the end,
and exits as soon as a state change triggered an error. -/
def ipv6_run (st : ReaderState) : List Char → ReaderState
  | [] => st
  | c :: cs =>
    if c = nulChar then st
    else
      let st1 := ipv6_step st c
      if st1.flagError then st1 else ipv6_run st1 cs

/-- `memcpy`-style write of the elements of `src` into `dst` starting at
index `i`. -/
def writeAt (dst : List Nat) (i : Nat) : List Nat → List Nat
  | [] => dst
  | v :: vs => writeAt (dst.set i v) (i + 1) vs

/-- The tail of `ipv6_from_str_diag` after the early error exit: the
no-zero-run component-count check, and the zero-run expansion
(`move_count`/`target` guards and the three `memcpy`s). -/
def ipv6_finalize (st : ReaderState) : Bool × ReaderState :=
  if st.flagZerorun = false then
    if st.components < IPV6_NUM_COMPONENTS then (false, ipv6_error st .v6BadComponentCount)
    else (true, st)
  else
    let src := st.addressFull.components
    let moveCount : Int := (st.components : Int) - (st.zerorun : Int)
    let target : Int := (IPV6_NUM_COMPONENTS : Int) - moveCount
    if moveCount < 0 ∨ moveCount > (IPV6_NUM_COMPONENTS : Int) then (false, st)
    else if target < 0 ∨ target + moveCount > (IPV6_NUM_COMPONENTS : Int) then (false, st)
    else
      let dst := writeAt (List.replicate 8 0) target.toNat ((src.drop st.zerorun).take moveCount.toNat)
      let dst := writeAt dst 0 (src.take st.zerorun)
      (true, { st with addressFull := { st.addressFull with components := dst } })

/-- The part of `ipv6_from_str_diag` after the scanning loop: the
synthesized end-of-input `EC_WHITESPACE` event, the embedded-IPv4 octet
count check (which, in the source, runs before the early error exit), the
error exit, and the zero-run finalization. -/
def ipv6_parse_finish (st0 : ReaderState) : Bool × Ipv6AddressFull × List DiagEvent :=
  -- Treat the end of the input as whitespace.
  let st := ipv6_state_transition st0 .EC_WHITESPACE ' '
  -- Mark the presence of embedded IPv4 addresses.
  let st :=
    if st.flagIpv4Embedding then
      if ¬ st.v4Octets = 4 then ipv6_error st .invalidIpv4Embedding
      else { st with addressFull := { st.addressFull with
              flags := st.addressFull.flags ||| IPV6_FLAG_IPV4_EMBED } }
    else st
  if st.flagError then (false, st.addressFull, st.diags)
  else
    let r := ipv6_finalize st
    (r.1, r.2.addressFull, r.2.diags)

/-- `ipv6_from_str_diag`: returns the C `bool` result, the output address and
the sequence of diagnostic callback invocations.  (On failure the C caller
must treat `out` as undefined; the accumulated address is returned here
regardless.) -/
def ipv6_from_str_diag (input : List Char) : Bool × Ipv6AddressFull × List DiagEvent :=
  let st0 : ReaderState := {}
  if input = [] ∨ input.headD nulChar = nulChar then
    let st := ipv6_error st0 .invalidInput
    (false, st.addressFull, st.diags)
  else if input.length > IPV6_STRING_SIZE then
    let st := ipv6_error st0 .stringSizeExceeded
    (false, st.addressFull, st.diags)
  else
    let st := ipv6_run st0 input
    if st.flagError then (false, st.addressFull, st.diags)
    else ipv6_parse_finish st

/-- `ipv6_from_str` (no diagnostics). -/
def ipv6_from_str (input : List Char) : Bool × Ipv6AddressFull :=
  let r := ipv6_from_str_diag input
  (r.1, r.2.1)

/-! ## Formatter (`ipv6_to_str`) -/

/-- Result of `ipv6_to_str`.  `nullNoWrite` models the `NULL` returns taken
before anything is written (`size < 4`); `truncatedNul` models
`OUTPUT_TRUNCATED()` — `*out = '\0'` (the observable output becomes the
empty C string) followed by `return NULL`; `ok s` models a successful return
of the buffer holding `s` (NUL-terminated). -/
inductive FmtResult where
  | nullNoWrite
  | truncatedNul
  | ok (s : List Char)
  deriving DecidableEq, Repr

/-- State of the zero-span scan in `ipv6_to_str` (`spans`, `spans_position`,
`longest_span`, `longest_position`). -/
structure SpanScan where
  spans : List Nat
  spansPosition : Nat
  longestSpan : Nat
  longestPosition : Nat
  deriving DecidableEq, Repr

/-- One iteration of the span scan, with the source's component-is-nonzero
test abstracted as `t i` (`t i = (components[i] != 0)`). -/
def spanScanStep (t : Nat → Bool) (s : SpanScan) (i : Nat) : SpanScan :=
  if t i then
    let s :=
      if s.spans.getD s.spansPosition 0 > s.longestSpan then
        { s with longestPosition := s.spansPosition, longestSpan := s.spans.getD s.spansPosition 0 }
      else s
    { s with spansPosition := i + 1 }
  else
    { s with spans := s.spans.set s.spansPosition (s.spans.getD s.spansPosition 0 + 1) }

/-- The zero-span scan of `ipv6_to_str` over `t`, including the final
`spans_position < IPV6_NUM_COMPONENTS` check; yields
`(longest_position, longest_span)`. -/
def findLongestSpanT (t : Nat → Bool) : Nat × Nat :=
  let s0 : SpanScan := ⟨List.replicate 8 0, 0, 0, 0⟩
  let s := (List.range 8).foldl (spanScanStep t) s0
  if s.spansPosition < 8 ∧ s.spans.getD s.spansPosition 0 > s.longestSpan then
    (s.spansPosition, s.spans.getD s.spansPosition 0)
  else (s.longestPosition, s.longestSpan)

/-- The zero-span scan of `ipv6_to_str` on the components of an address:
where `::` will be placed (`longest_position`) and how many components it
covers (`longest_span`). -/
def findLongestSpan (comps : List Nat) : Nat × Nat :=
  findLongestSpanT (fun i => comps.getD i 0 != 0)

/-- Lowercase hex digits of `n` (`snprintf "%x"`). -/
def natToHex (n : Nat) : List Char := Nat.toDigits 16 n

/-- Decimal digits of `n` (`snprintf "%d"` / `"%u"` / `"%hu"` of an unsigned
value). -/
def natToDec (n : Nat) : List Char := Nat.toDigits 10 n

/-- Copy token bytes while `wp < ep` (the bounded copy loops of
`ipv6_to_str`); bytes that do not fit are silently dropped. -/
def copyBounded (wp : List Char) (ep : Nat) : List Char → List Char
  | [] => wp
  | c :: cs => if wp.length < ep then copyBounded (wp ++ [c]) ep cs else wp

/-- Whether iteration `i` takes the IPv4-embed output branch
(`i == 6 && in->flags & IPV6_FLAG_IPV4_EMBED`). -/
def emitEmbed (a : Ipv6AddressFull) (i : Nat) : Prop :=
  i = 6 ∧ a.flags &&& IPV6_FLAG_IPV4_EMBED ≠ 0

instance (a : Ipv6AddressFull) (i : Nat) : Decidable (emitEmbed a i) := by
  unfold emitEmbed; infer_instance

/-- The component index after the token branch: the embed branch does `i++`. -/
def emitJ (a : Ipv6AddressFull) (i : Nat) : Nat :=
  if emitEmbed a i then i + 1 else i

/-- The token `snprintf` of iteration `i`: with the embed branch, the four
octets read back through the little-endian byte aliasing (`ipv4[0..3]`),
`"%d.%d.%d.%d"`; otherwise `"%x"` of the component. -/
def emitTokenStr (a : Ipv6AddressFull) (i : Nat) : List Char :=
  if emitEmbed a i then
    let c6 := a.components.getD 6 0
    let c7 := a.components.getD 7 0
    natToDec (c6 % 256) ++ '.' :: natToDec (c6 / 256 % 256) ++
      '.' :: natToDec (c7 % 256) ++ '.' :: natToDec (c7 / 256 % 256)
  else natToHex (a.components.getD i 0)

/-- The component emission loop of `ipv6_to_str` (`for i; i < 8; ++i`), with
the `::` abbreviation branch (`i == longest_position && longest_span > 1`),
its two truncation checks, and the skipping of `i`.  `none` is
`OUTPUT_TRUNCATED`.  The first argument is an iteration bound: the loop body
runs at most 8 times (each iteration advances `i` by at least one), and the
driver passes 8, so the bound is never exhausted before `i` reaches 8; the
exhausted case returns the buffer like the normal loop exit. -/
def emitComponents (a : Ipv6AddressFull) (lp ls ep : Nat) :
    Nat → Nat → List Char → Option (List Char)
  | 0, _, wp => some wp
  | fuel + 1, i, wp =>
    if i < 8 then
      let token := emitTokenStr a i
      let j := emitJ a i
      if j = lp ∧ ls > 1 then
        if wp.length + 2 ≥ ep then none
        else
          let wp := if j > 0 then wp ++ [':'] else wp ++ [':', ':']
          emitComponents a lp ls ep fuel (j + ls) wp
      else
        let wp := copyBounded wp ep token
        let wp := if j < IPV6_NUM_COMPONENTS - 1 ∧ wp.length < ep then wp ++ [':'] else wp
        if wp.length = ep then none
        else emitComponents a lp ls ep fuel (j + 1) wp
    else some wp

/-- `ipv6_to_str`.  The address body is emitted with bounds checks; the
`/mask` and `]:port` suffixes use the bounded copy.  (The `!in` null-pointer
return has no model.) -/
def ipv6_to_str (a : Ipv6AddressFull) (size : Nat) : FmtResult :=
  if size < 4 then .nullNoWrite
  else
    let ep := size - 1
    let q := findLongestSpan a.components
    let wp : List Char := if a.flags &&& IPV6_FLAG_HAS_PORT ≠ 0 then ['['] else []
    match emitComponents a q.1 q.2 ep 8 0 wp with
    | none => .truncatedNul
    | some wp =>
      let wp :=
        if a.flags &&& IPV6_FLAG_HAS_MASK ≠ 0 then
          copyBounded wp ep ('/' :: natToDec (a.mask % 4294967296))
        else wp
      let wp :=
        if a.flags &&& IPV6_FLAG_HAS_PORT ≠ 0 then
          copyBounded wp ep (']' :: ':' :: natToDec (a.port % 65536))
        else wp
      .ok wp

/-! ## Auxiliary definitions used by the claims -/

/-- The mathematical value denoted by a decimal digit string (no overflow):
what the claims call "the numeric value denoted by the token's digit
string". -/
def decValue (cs : List Char) : Nat := cs.foldl (fun a c => a * 10 + decDigitVal c) 0

/-- Exact-arithmetic decimal accumulation from `a`. -/
def decValueFrom (a : Nat) (cs : List Char) : Nat := cs.foldl (fun a c => a * 10 + decDigitVal c) a

def allDecDigits (cs : List Char) : Prop := ∀ c ∈ cs, isDecDigitChar c = true

instance (cs : List Char) : Decidable (allDecDigits cs) := by
  unfold allDecDigits; infer_instance

/-- Spec-side definition (for comparison with `findLongestSpanT`, which is
from the source): `p` starts a maximal run of zero components of length `l`,
where `t i` is the component-is-nonzero test. -/
def specZeroRunAtT (t : Nat → Bool) (p l : Nat) : Prop :=
  1 ≤ l ∧ p + l ≤ 8 ∧ (∀ j < l, t (p + j) = false) ∧
    (p = 0 ∨ t (p - 1) = true) ∧ (p + l = 8 ∨ t (p + l) = true)

instance (t : Nat → Bool) (p l : Nat) : Decidable (specZeroRunAtT t p l) := by
  unfold specZeroRunAtT; infer_instance

/-- Spec-side definition: `p` starts a maximal run of zero components of
length `l` in the component list. -/
def specZeroRunAt (comps : List Nat) (p l : Nat) : Prop :=
  specZeroRunAtT (fun i => comps.getD i 0 != 0) p l

/-- The full property claimed of the span scan: when the chosen span is ≥ 2
it is the earliest longest maximal zero run; when it is < 2 no maximal zero
run has length ≥ 2. -/
def spanChoiceSpec (t : Nat → Bool) : Prop :=
  ((findLongestSpanT t).2 ≥ 2 →
      specZeroRunAtT t (findLongestSpanT t).1 (findLongestSpanT t).2 ∧
      (∀ q < 8, ∀ l ≤ 8, specZeroRunAtT t q l → l ≤ (findLongestSpanT t).2) ∧
      (∀ q < 8, specZeroRunAtT t q (findLongestSpanT t).2 → (findLongestSpanT t).1 ≤ q)) ∧
    ((findLongestSpanT t).2 < 2 → ∀ q < 8, ∀ l ≤ 8, specZeroRunAtT t q l → l ≤ 1)

instance (t : Nat → Bool) : Decidable (spanChoiceSpec t) := by
  unfold spanChoiceSpec; infer_instance

/-- A byte that may appear inside a zone/interface segment: classifiable by
the parser, not whitespace, not `]`, not NUL (any of those would end the
zone or the parse). -/
def zoneByte (c : Char) : Prop :=
  (isDecDigitChar c = true ∨ ('a' ≤ c ∧ c ≤ 'f') ∨ ('A' ≤ c ∧ c ≤ 'F') ∨
    c = ':' ∨ c = '.' ∨ c = '/' ∨ c = '%' ∨ c = '[') ∧
  c ≠ ']' ∧ c ≠ ' ' ∧ c ≠ '\t' ∧ c ≠ '\n' ∧ c ≠ '\r' ∧ c ≠ nulChar

instance (c : Char) : Decidable (zoneByte c) := by
  unfold zoneByte; infer_instance

/-- A zone segment: every byte a `zoneByte`. -/
def ZoneClean (z : List Char) : Prop := ∀ c ∈ z, zoneByte c

instance (z : List Char) : Decidable (ZoneClean z) := by
  unfold ZoneClean; infer_instance

/-- Erase the bracket counter (the only reader-state field untouched by the
zone-insensitivity relation of C8). -/
def eraseBrackets (s : ReaderState) : ReaderState := { s with brackets := 0 }

/-- The states reachable by the scanner: `STATE_ZERORUN` is never entered,
and the error state always travels with the error flag. -/
def InvState (s : ReaderState) : Prop :=
  s.current ≠ .STATE_ZERORUN ∧ (s.flagError = false → s.current ≠ .STATE_ERROR)

/-! ## Comparator (`ipv6_compare`) -/

/-- The component loop of `ipv6_compare`: the first nonzero
`a->components[i] - b->components[i]` (both operands promoted to `int`, so
the subtraction is exact), else 0.  The loop over the eight indices is
expressed as simultaneous recursion over the two component lists (both have
length 8). -/
def ipv6_compare_components : List Nat → List Nat → Int
  | x :: xs, y :: ys =>
    let c : Int := (x : Int) - (y : Int)
    if c ≠ 0 then c else ipv6_compare_components xs ys
  | _, _ => 0

/-- `ipv6_compare`: components, then flags (32-bit unsigned subtraction read
as `int32_t`), then port (only if `a` has one), then mask (only if `a` has
one). -/
def ipv6_compare (a b : Ipv6AddressFull) : Int :=
  let c := ipv6_compare_components a.components b.components
  if c ≠ 0 then c
  else
    let c := toInt32 (u32sub a.flags b.flags)
    if c ≠ 0 then c
    else
      let c : Int :=
        if a.flags &&& IPV6_FLAG_HAS_PORT ≠ 0 then (a.port : Int) - (b.port : Int) else 0
      if c ≠ 0 then c
      else
        let c : Int :=
          if a.flags &&& IPV6_FLAG_HAS_MASK ≠ 0 then toInt32 (u32sub a.mask b.mask) else 0
        if c ≠ 0 then c else 0

/-! ## Claim C1: round-trip

The claim fails on the code: an address with all-zero components and the
IPv4-embed flag (produced by the parser itself from `"::0.0.0.0"`) formats
as `"::"` — the zero-run compression swallows the embedded-IPv4 tail — and
parsing `"::"` yields the same components with `flags = 0`, so the
comparison is nonzero. -/

/-- C1: the formatter and parser do not round-trip on the address with
all-zero components and the `IPV6_FLAG_IPV4_EMBED` flag: the parser produces
this address from `"::0.0.0.0"`, the formatter renders it as `"::"`, parsing
that text succeeds, and `ipv6_compare` of the two addresses is `4 ≠ 0`. -/
theorem C1_roundtrip_ipv4_embed_lost :
    ipv6_from_str "::0.0.0.0".data =
      (true, ⟨[0, 0, 0, 0, 0, 0, 0, 0], 0, 0, IPV6_FLAG_IPV4_EMBED⟩) ∧
    ipv6_to_str ⟨[0, 0, 0, 0, 0, 0, 0, 0], 0, 0, IPV6_FLAG_IPV4_EMBED⟩ 66 = .ok "::".data ∧
    (ipv6_from_str "::".data).1 = true ∧
    ipv6_compare ⟨[0, 0, 0, 0, 0, 0, 0, 0], 0, 0, IPV6_FLAG_IPV4_EMBED⟩
      (ipv6_from_str "::".data).2 = 4 := by
  decide

/-! ## Claim C3: single diagnostic per failed parse

The claim fails on the code: the incomplete-IPv4-embedding check after the
synthesized end-of-input event runs before the early error exit, so an error
raised by the final event is followed by a second callback. -/

/-- C3: on `"[::1.2.3]:99999"` the parse returns false but the diagnostic
callback is invoked twice (`INVALID_PORT`, then `INVALID_IPV4_EMBEDDING`),
contradicting "at most once". -/
theorem C3_double_diagnostic :
    (ipv6_from_str_diag "[::1.2.3]:99999".data).1 = false ∧
    (ipv6_from_str_diag "[::1.2.3]:99999".data).2.2 =
      [.invalidPort, .invalidIpv4Embedding] := by
  decide

/-! ## Claim C7: `"::ffff:192.168.0.1"` -/

/-- C7 counterexample: parsing `"::ffff:192.168.0.1"` does *not* give
`components[6] = 0xC0A8, components[7] = 0x0001`.  The octets are stored
through byte aliasing, so on the (little-endian) host modelled here the two
16-bit values read back byte-swapped: `0xA8C0` and `0x0100`. -/
theorem C7_components_byte_swapped :
    (ipv6_from_str "::ffff:192.168.0.1".data).1 = true ∧
    (ipv6_from_str "::ffff:192.168.0.1".data).2.components =
      [0, 0, 0, 0, 0, 0xFFFF, 0xA8C0, 0x0100] ∧
    ([0, 0, 0, 0, 0, 0xFFFF, 0xA8C0, 0x0100] : List Nat) ≠
      [0, 0, 0, 0, 0, 0xFFFF, 0xC0A8, 0x0001] := by
  decide

/-- C7 amended: parsing `"::ffff:192.168.0.1"` succeeds with the IPv4-embed
flag set; `components[6]` and `components[7]` hold the four octets as
consecutive bytes in natural left-to-right order (little-endian words
`0xA8C0, 0x0100`), and formatting the resulting address yields
`"::ffff:192.168.0.1"` again. -/
theorem C7_embed_parse_format :
    ipv6_from_str "::ffff:192.168.0.1".data =
      (true, ⟨[0, 0, 0, 0, 0, 0xFFFF, 0xA8C0, 0x0100], 0, 0, IPV6_FLAG_IPV4_EMBED⟩) ∧
    ipv6_to_str ⟨[0, 0, 0, 0, 0, 0xFFFF, 0xA8C0, 0x0100], 0, 0, IPV6_FLAG_IPV4_EMBED⟩ 66 =
      .ok "::ffff:192.168.0.1".data := by
  decide

/-! ## Claim C9: `]` accepted without `[` -/

/-- C9: `"::1]:8080"` — a closing bracket with no opening bracket — parses
successfully with `has_port` and port 8080; only a second `[` is rejected by
the bracket counter (`"[[::1]:8080"` fails with `INVALID_BRACKETS`). -/
theorem C9_close_bracket_without_open :
    ipv6_from_str "::1]:8080".data =
      (true, ⟨[0, 0, 0, 0, 0, 0, 0, 1], 8080, 0, IPV6_FLAG_HAS_PORT⟩) ∧
    (ipv6_from_str_diag "[[::1]:8080".data).1 = false ∧
    (ipv6_from_str_diag "[[::1]:8080".data).2.2 = [.invalidBrackets] := by
  decide

/-! ## Claim C10: interior whitespace terminates a component -/

/-- C10: `"1:2:3:4:5:6:7 8"` parses successfully: the space commits `7` and
returns to the initial state, from which `8` begins a new component, so both
groups land in consecutive component slots. -/
theorem C10_interior_whitespace :
    ipv6_from_str "1:2:3:4:5:6:7 8".data =
      (true, ⟨[1, 2, 3, 4, 5, 6, 7, 8], 0, 0, 0⟩) := by
  decide

/-! ## Claim C6: port range (counterexample) -/

/-- C6 counterexample: the digit string `"4294967376"` denotes
4294967376 > 65535, yet parsing `"::1]:4294967376"` succeeds — the 32-bit
accumulator wraps to 80 — with port 80.  A successful parse therefore *can*
accept a port token whose written decimal value exceeds 65535. -/
theorem C6_port_accumulator_wraps :
    decValue "4294967376".data = 4294967376 ∧
    4294967376 > 65535 ∧
    (ipv6_from_str "::1]:4294967376".data).1 = true ∧
    (ipv6_from_str "::1]:4294967376".data).2.port = 80 := by
  decide

/-! ## Claim C5: truncation reporting (counterexample) -/

/-- C5 counterexample: for the address `1:2:3:4:5:6:7:8/64` the full
formatted text (18 characters) does not fit in a 17-byte buffer, but
`ipv6_to_str` with size 17 returns success with the silently truncated
output `"1:2:3:4:5:6:7:8/"` — no NUL at the start, no failure indicator. -/
theorem C5_silent_suffix_truncation :
    ipv6_to_str ⟨[1, 2, 3, 4, 5, 6, 7, 8], 0, 64, IPV6_FLAG_HAS_MASK⟩ 19 =
      .ok "1:2:3:4:5:6:7:8/64".data ∧
    "1:2:3:4:5:6:7:8/64".data.length + 1 > 17 ∧
    ipv6_to_str ⟨[1, 2, 3, 4, 5, 6, 7, 8], 0, 64, IPV6_FLAG_HAS_MASK⟩ 17 =
      .ok "1:2:3:4:5:6:7:8/".data := by
  decide

/-! ## Claim C6: amended port-range theorem

Supporting lemmas: as long as the mathematical value of a decimal digit
string fits the 32-bit accumulator, `read_decimal_loop` computes it exactly
(no wraparound). -/

theorem decValueFrom_le (a : Nat) (cs : List Char) : a ≤ decValueFrom a cs := by
  induction cs generalizing a with
  | nil => simp [decValueFrom]
  | cons c cs ih =>
    have h1 : a ≤ a * 10 + decDigitVal c := by omega
    have h2 : a * 10 + decDigitVal c ≤ decValueFrom (a * 10 + decDigitVal c) cs := ih _
    have h3 : decValueFrom a (c :: cs) = decValueFrom (a * 10 + decDigitVal c) cs := rfl
    omega

theorem read_decimal_loop_exact (cs : List Char) (a : Nat) (hd : allDecDigits cs)
    (hb : decValueFrom a cs < 4294967296) :
    read_decimal_loop a cs = (decValueFrom a cs, false) := by
  induction cs generalizing a with
  | nil => simp [read_decimal_loop, decValueFrom]
  | cons c cs ih =>
    have hc : isDecDigitChar c = true := hd c (List.mem_cons_self c cs)
    have hfold : decValueFrom a (c :: cs) = decValueFrom (a * 10 + decDigitVal c) cs := rfl
    have hmid : a * 10 + decDigitVal c ≤ decValueFrom (a * 10 + decDigitVal c) cs :=
      decValueFrom_le _ _
    have hlt : a * 10 + decDigitVal c < 4294967296 := by omega
    have hmod : (a * 10 + decDigitVal c) % 4294967296 = a * 10 + decDigitVal c :=
      Nat.mod_eq_of_lt hlt
    have hd' : allDecDigits cs := fun x hx => hd x (List.mem_cons_of_mem c hx)
    simp only [read_decimal_loop, hc, if_true, hmod, hfold]
    exact ih _ hd' (by omega)

/-- C6 amended: for a decimal port token whose written value fits the 32-bit
accumulator (`< 2^31`), the commit enforces the range exactly: a value above
65535 fails with `INVALID_PORT`, and a value within range is stored as the
port with `has_port` set.  (Tokens whose value overflows 32 bits can wrap
back into range and be accepted — see the counterexample.) -/
theorem C6_port_range_checked (st : ReaderState)
    (hd : allDecDigits st.token) (hb : decValue st.token < 2147483648) :
    (decValue st.token > 65535 → ipvx_parse_port st = ipv6_error st .invalidPort) ∧
    (decValue st.token ≤ 65535 →
      ipvx_parse_port st =
        { st with addressFull := { st.addressFull with
            port := decValue st.token
            flags := st.addressFull.flags ||| IPV6_FLAG_HAS_PORT } }) := by
  have hv : decValueFrom 0 st.token = decValue st.token := rfl
  have hloop : read_decimal_loop 0 st.token = (decValue st.token, false) := by
    rw [← hv]
    exact read_decimal_loop_exact _ _ hd (by rw [hv]; omega)
  have hmod : decValue st.token % 4294967296 = decValue st.token := Nat.mod_eq_of_lt (by omega)
  have hint : toInt32 (decValue st.token) = (decValue st.token : Int) := by
    unfold toInt32
    rw [hmod, if_pos hb]
  constructor
  · intro hgt
    have hcond : ¬ (toInt32 (decValue st.token) > -1 ∧ toInt32 (decValue st.token) ≤ 65535) := by
      rw [hint]
      intro h
      have h2 := h.2
      omega
    simp only [ipvx_parse_port, read_decimal_token, hloop]
    rw [if_pos hcond]
  · intro hle
    have hcond : toInt32 (decValue st.token) > -1 ∧ toInt32 (decValue st.token) ≤ 65535 := by
      rw [hint]
      constructor <;> omega
    simp only [ipvx_parse_port, read_decimal_token, hloop]
    rw [if_neg (not_not_intro hcond), Nat.mod_eq_of_lt (show decValue st.token < 65536 by omega)]

/-- C6 witness: the token `"70000"` (value 70000 > 65535, below 2^31) is
rejected with `INVALID_PORT`. -/
theorem C6_port_range_checked_witness :
    ipvx_parse_port { token := "70000".data } =
      ipv6_error { token := "70000".data } .invalidPort :=
  (C6_port_range_checked { token := "70000".data } (by decide) (by decide)).1 (by decide)

/-! ## Claim C5: amended truncation theorem

Supporting lemmas.  First, the bounded copy loop: it copies everything when
there is room, and otherwise fills the buffer exactly up to `ep`. -/

theorem copyBounded_full (wp : List Char) (ep : Nat) (xs : List Char)
    (h : wp.length + xs.length ≤ ep) : copyBounded wp ep xs = wp ++ xs := by
  induction xs generalizing wp with
  | nil => simp [copyBounded]
  | cons c cs ih =>
    have hlt : wp.length < ep := by simp at h; omega
    rw [copyBounded, if_pos hlt, ih (wp ++ [c]) (by simp; simp at h; omega)]
    simp

theorem copyBounded_length (wp : List Char) (ep : Nat) (xs : List Char)
    (h : wp.length ≤ ep) :
    (copyBounded wp ep xs).length = min (wp.length + xs.length) ep := by
  induction xs generalizing wp with
  | nil => simp [copyBounded]; omega
  | cons c cs ih =>
    by_cases hlt : wp.length < ep
    · rw [copyBounded, if_pos hlt, ih (wp ++ [c]) (by simp; omega)]
      simp; omega
    · rw [copyBounded, if_neg hlt]
      simp; omega

/-- The component-emission loop never silently truncates: when it succeeds,
its output is final — running it with any larger buffer bound produces the
same bytes.  (Every byte the loop drops makes `wp` reach `ep`, and each of
the loop's two truncation checks then fires before the iteration ends.) -/
theorem emitComponents_mono (a : Ipv6AddressFull) (lp ls : Nat) :
    ∀ (fuel i : Nat) (wp w : List Char) (ep ep' : Nat),
      wp.length ≤ ep → ep ≤ ep' →
      emitComponents a lp ls ep fuel i wp = some w →
      emitComponents a lp ls ep' fuel i wp = some w := by
  intro fuel
  induction fuel with
  | zero =>
    intro i wp w ep ep' _ _ h
    exact h
  | succ fuel ih =>
    intro i wp w ep ep' hwp hle h
    rw [emitComponents] at h
    rw [emitComponents]
    by_cases hi : i < 8
    · rw [if_pos hi] at h
      rw [if_pos hi]
      dsimp only at h ⊢
      by_cases hab : emitJ a i = lp ∧ ls > 1
      · rw [if_pos hab] at h
        rw [if_pos hab]
        by_cases hck : wp.length + 2 ≥ ep
        · rw [if_pos hck] at h
          exact Option.noConfusion h
        · rw [if_neg hck] at h
          rw [if_neg (show ¬ wp.length + 2 ≥ ep' by omega)]
          refine ih _ _ w ep ep' ?_ hle h
          by_cases hj : emitJ a i > 0
          · rw [if_pos hj]; simp; omega
          · rw [if_neg hj]; simp; omega
      · rw [if_neg hab] at h
        rw [if_neg hab]
        have htl : (wp ++ emitTokenStr a i).length =
            wp.length + (emitTokenStr a i).length := by simp
        by_cases hfit : wp.length + (emitTokenStr a i).length ≤ ep
        · have hc1 : copyBounded wp ep (emitTokenStr a i) = wp ++ emitTokenStr a i :=
            copyBounded_full _ _ _ hfit
          have hc1' : copyBounded wp ep' (emitTokenStr a i) = wp ++ emitTokenStr a i :=
            copyBounded_full _ _ _ (by omega)
          rw [hc1] at h
          rw [hc1']
          by_cases hexact : (wp ++ emitTokenStr a i).length = ep
          · have hnc : ¬ (emitJ a i < IPV6_NUM_COMPONENTS - 1 ∧
                (wp ++ emitTokenStr a i).length < ep) := by
              rintro ⟨-, hlt⟩; omega
            rw [if_neg hnc, if_pos hexact] at h
            exact Option.noConfusion h
          · have hlt : (wp ++ emitTokenStr a i).length < ep := by omega
            by_cases hj : emitJ a i < IPV6_NUM_COMPONENTS - 1
            · rw [if_pos (And.intro hj hlt)] at h
              rw [if_pos (And.intro hj (show (wp ++ emitTokenStr a i).length < ep' by omega))]
              have hl2 : ((wp ++ emitTokenStr a i) ++ [':']).length =
                  (wp ++ emitTokenStr a i).length + 1 := by simp; omega
              by_cases hck : ((wp ++ emitTokenStr a i) ++ [':']).length = ep
              · rw [if_pos hck] at h
                exact Option.noConfusion h
              · rw [if_neg hck] at h
                rw [if_neg (show ¬ ((wp ++ emitTokenStr a i) ++ [':']).length = ep' by omega)]
                exact ih _ _ w ep ep' (by omega) hle h
            · have hnc : ¬ (emitJ a i < IPV6_NUM_COMPONENTS - 1 ∧
                  (wp ++ emitTokenStr a i).length < ep) := by
                rintro ⟨hj', -⟩; exact hj hj'
              have hnc' : ¬ (emitJ a i < IPV6_NUM_COMPONENTS - 1 ∧
                  (wp ++ emitTokenStr a i).length < ep') := by
                rintro ⟨hj', -⟩; exact hj hj'
              rw [if_neg hnc, if_neg hexact] at h
              rw [if_neg hnc', if_neg (show ¬ (wp ++ emitTokenStr a i).length = ep' by omega)]
              exact ih _ _ w ep ep' (by omega) hle h
        · have hsat : (copyBounded wp ep (emitTokenStr a i)).length = ep := by
            rw [copyBounded_length _ _ _ hwp]; omega
          have hnc : ¬ (emitJ a i < IPV6_NUM_COMPONENTS - 1 ∧
              (copyBounded wp ep (emitTokenStr a i)).length < ep) := by
            rintro ⟨-, hlt⟩; omega
          rw [if_neg hnc, if_pos hsat] at h
          exact Option.noConfusion h
    · rw [if_neg hi] at h
      rw [if_neg hi]
      exact h

theorem emitTokenStr_ext (c : List Nat) (pa ma fa pb mb : Nat) (i : Nat) :
    emitTokenStr ⟨c, pa, ma, fa⟩ i = emitTokenStr ⟨c, pb, mb, fa⟩ i := rfl

theorem emitJ_ext (c : List Nat) (pa ma fa pb mb : Nat) (i : Nat) :
    emitJ ⟨c, pa, ma, fa⟩ i = emitJ ⟨c, pb, mb, fa⟩ i := rfl

/-- The component-emission loop reads only the components and the flag word:
the mask and port values cannot influence it. -/
theorem emitComponents_ext (c : List Nat) (pa ma fa pb mb lp ls ep : Nat) :
    ∀ (fuel i : Nat) (wp : List Char),
      emitComponents ⟨c, pa, ma, fa⟩ lp ls ep fuel i wp =
      emitComponents ⟨c, pb, mb, fa⟩ lp ls ep fuel i wp := by
  intro fuel
  induction fuel with
  | zero => intro i wp; rfl
  | succ fuel ih =>
    intro i wp
    rw [emitComponents, emitComponents]
    simp only [emitTokenStr_ext c pa ma fa pb mb, emitJ_ext c pa ma fa pb mb, ih]

/-- Success of `ipv6_to_str` is monotone in the buffer size. -/
theorem ipv6_to_str_mono (a : Ipv6AddressFull) (n n' : Nat) (s : List Char)
    (hn : 4 ≤ n) (hle : n ≤ n') (h : ipv6_to_str a n = .ok s) :
    ∃ s', ipv6_to_str a n' = .ok s' := by
  unfold ipv6_to_str at h ⊢
  rw [if_neg (show ¬ n < 4 by omega)] at h
  rw [if_neg (show ¬ n' < 4 by omega)]
  dsimp only at h ⊢
  cases hE : emitComponents a (findLongestSpan a.components).1 (findLongestSpan a.components).2
      (n - 1) 8 0 (if a.flags &&& IPV6_FLAG_HAS_PORT ≠ 0 then ['['] else []) with
  | none =>
    rw [hE] at h
    exact absurd h (by simp)
  | some wp =>
    rw [hE] at h
    have hw0 : (if a.flags &&& IPV6_FLAG_HAS_PORT ≠ 0 then
        (['['] : List Char) else []).length ≤ n - 1 := by
      split
      · simp; omega
      · simp
    have hE' := emitComponents_mono a _ _ 8 0 _ wp (n - 1) (n' - 1) hw0 (by omega) hE
    rw [hE']
    exact ⟨_, rfl⟩

/-- Whether `ipv6_to_str` fails depends only on the components, the flag
word and the size — never on the mask or port values, whose text is copied
with the unchecked bounded loops. -/
theorem ipv6_to_str_kind_ext (a b : Ipv6AddressFull) (n : Nat)
    (hc : a.components = b.components) (hf : a.flags = b.flags) :
    (ipv6_to_str a n = .truncatedNul ↔ ipv6_to_str b n = .truncatedNul) ∧
    ((∃ s, ipv6_to_str a n = .ok s) ↔ ∃ s, ipv6_to_str b n = .ok s) := by
  obtain ⟨ca, pa, ma, fa⟩ := a
  obtain ⟨cb, pb, mb, fb⟩ := b
  dsimp only at hc hf
  subst hc
  subst hf
  unfold ipv6_to_str
  by_cases hn : n < 4
  · rw [if_pos hn, if_pos hn]
    simp
  · rw [if_neg hn, if_neg hn]
    dsimp only
    rw [emitComponents_ext ca pa ma fa pb mb]
    cases hE : emitComponents ⟨ca, pb, mb, fa⟩ (findLongestSpan ca).1 (findLongestSpan ca).2
        (n - 1) 8 0 (if fa &&& IPV6_FLAG_HAS_PORT ≠ 0 then ['['] else []) with
    | none => simp
    | some wp => simp

/-- C5 amended: with a usable buffer (`size ≥ 4`) the formatter never fails
without first writing the NUL terminator at the buffer start — the only
`NULL` return that writes nothing is the `size < 4` guard — and the address
body (the optional `[` and the eight components) is never silently
truncated: for every address, a successful body emission is final (any
larger buffer bound yields the same bytes), and success at one size implies
success at every larger size, so a buffer the body does not fit in yields
the NUL-writing failure — concretely, the body `1:2:3:4:5:6:7:8` fails at
every size from 4 to 16 and fits at 17.  The `/mask` and `]:port` suffixes,
by contrast, are outside the guarantee: for every address, whether the call
fails is independent of the mask and port values, so a suffix that does not
fit is silently dropped with a success return — concretely,
`[1:2:3:4:5:6:7:8]:8080` needs 23 bytes but size 18 returns success with
`[1:2:3:4:5:6:7:8]` (and see the `/mask` counterexample). -/
theorem C5_truncation_amended :
    (∀ (a : Ipv6AddressFull) (n : Nat), 4 ≤ n → ipv6_to_str a n ≠ .nullNoWrite) ∧
    (∀ (a : Ipv6AddressFull) (lp ls fuel i : Nat) (wp w : List Char) (ep ep' : Nat),
      wp.length ≤ ep → ep ≤ ep' →
      emitComponents a lp ls ep fuel i wp = some w →
      emitComponents a lp ls ep' fuel i wp = some w) ∧
    (∀ (a : Ipv6AddressFull) (n n' : Nat) (s : List Char), 4 ≤ n → n ≤ n' →
      ipv6_to_str a n = .ok s → ∃ s', ipv6_to_str a n' = .ok s') ∧
    (∀ (a b : Ipv6AddressFull) (n : Nat),
      a.components = b.components → a.flags = b.flags →
      ((ipv6_to_str a n = .truncatedNul ↔ ipv6_to_str b n = .truncatedNul) ∧
       ((∃ s, ipv6_to_str a n = .ok s) ↔ ∃ s, ipv6_to_str b n = .ok s))) ∧
    (∀ n < 17, 4 ≤ n →
      ipv6_to_str ⟨[1, 2, 3, 4, 5, 6, 7, 8], 0, 0, 0⟩ n = .truncatedNul) ∧
    ipv6_to_str ⟨[1, 2, 3, 4, 5, 6, 7, 8], 0, 0, 0⟩ 17 = .ok "1:2:3:4:5:6:7:8".data ∧
    ipv6_to_str ⟨[1, 2, 3, 4, 5, 6, 7, 8], 8080, 0, IPV6_FLAG_HAS_PORT⟩ 18 =
      .ok "[1:2:3:4:5:6:7:8]".data ∧
    "[1:2:3:4:5:6:7:8]:8080".data.length + 1 > 18 ∧
    ipv6_to_str ⟨[1, 2, 3, 4, 5, 6, 7, 8], 8080, 0, IPV6_FLAG_HAS_PORT⟩ 23 =
      .ok "[1:2:3:4:5:6:7:8]:8080".data := by
  refine ⟨?_, fun a lp ls fuel i wp w ep ep' => emitComponents_mono a lp ls fuel i wp w ep ep',
    fun a n n' s => ipv6_to_str_mono a n n' s,
    fun a b n => ipv6_to_str_kind_ext a b n,
    by decide, by decide, by decide, by decide, by decide⟩
  intro a n hn
  unfold ipv6_to_str
  rw [if_neg (show ¬ n < 4 by omega)]
  dsimp only
  split <;> simp

/-- C5 witness: each universal clause at a concrete input — the formatter's
failure on `1:2:3:4:5:6:7:8` at size 5 is the NUL-writing truncation, not
the write-free `NULL` return; the body emission that succeeds with bound 16
gives the same bytes with bound 20; success at size 17 gives success at
size 30; and the failure outcome at size 10 is unchanged when the mask and
port values change. -/
theorem C5_truncation_amended_witness :
    ipv6_to_str ⟨[1, 2, 3, 4, 5, 6, 7, 8], 0, 0, 0⟩ 5 ≠ .nullNoWrite ∧
    emitComponents ⟨[1, 2, 3, 4, 5, 6, 7, 8], 0, 0, 0⟩ 0 0 20 8 0 [] =
      some "1:2:3:4:5:6:7:8".data ∧
    (∃ s', ipv6_to_str ⟨[1, 2, 3, 4, 5, 6, 7, 8], 0, 0, 0⟩ 30 = .ok s') ∧
    (ipv6_to_str ⟨[1, 2, 3, 4, 5, 6, 7, 8], 99, 77, IPV6_FLAG_HAS_MASK⟩ 10 = .truncatedNul ↔
      ipv6_to_str ⟨[1, 2, 3, 4, 5, 6, 7, 8], 0, 64, IPV6_FLAG_HAS_MASK⟩ 10 = .truncatedNul) ∧
    ipv6_to_str ⟨[1, 2, 3, 4, 5, 6, 7, 8], 0, 0, 0⟩ 5 = .truncatedNul :=
  ⟨C5_truncation_amended.1 _ 5 (by decide),
   C5_truncation_amended.2.1 _ 0 0 8 0 [] _ 16 20 (by decide) (by decide) (by decide),
   C5_truncation_amended.2.2.1 _ 17 30 "1:2:3:4:5:6:7:8".data (by decide) (by decide) (by decide),
   (C5_truncation_amended.2.2.2.1 _ _ 10 (by decide) (by decide)).1,
   C5_truncation_amended.2.2.2.2.1 5 (by decide) (by decide)⟩

/-! ## Claim C2: placement of the `::` abbreviation

`ipv6_to_str` chooses the abbreviation position with `findLongestSpan` and
emits `::` exactly under `i == longest_position && longest_span > 1`.  We
check, for all 256 zero/nonzero patterns of the eight components, that this
choice is the earliest longest maximal zero run and that a chosen span ≥ 2
exists exactly when some maximal zero run has length ≥ 2. -/

theorem spanChoice_all : ∀ b0 b1 b2 b3 b4 b5 b6 b7 : Bool,
    spanChoiceSpec (fun i => [b0, b1, b2, b3, b4, b5, b6, b7].getD i false) := by decide

theorem specZeroRunAt_bounds {comps : List Nat} {q l : Nat} (h : specZeroRunAt comps q l) :
    q < 8 ∧ 1 ≤ l ∧ l ≤ 8 := by
  obtain ⟨h1, h2, -⟩ := h
  omega

/-- C2: for every 8-component address, the span scan used by `ipv6_to_str`
picks the earliest of the longest maximal zero runs whenever the chosen span
is ≥ 2 (and the formatter's abbreviation branch fires only under
`longest_span > 1`); when the chosen span is < 2, every maximal zero run has
length ≤ 1, so no run of length 1 is ever abbreviated. -/
theorem C2_abbrev_placement (comps : List Nat) (h8 : comps.length = 8) :
    ((findLongestSpan comps).2 ≥ 2 →
      specZeroRunAt comps (findLongestSpan comps).1 (findLongestSpan comps).2 ∧
      (∀ q l, specZeroRunAt comps q l → l ≤ (findLongestSpan comps).2) ∧
      (∀ q, specZeroRunAt comps q (findLongestSpan comps).2 → (findLongestSpan comps).1 ≤ q)) ∧
    ((findLongestSpan comps).2 < 2 → ∀ q l, specZeroRunAt comps q l → l ≤ 1) := by
  have key := spanChoice_all (comps.getD 0 0 != 0) (comps.getD 1 0 != 0) (comps.getD 2 0 != 0)
    (comps.getD 3 0 != 0) (comps.getD 4 0 != 0) (comps.getD 5 0 != 0) (comps.getD 6 0 != 0)
    (comps.getD 7 0 != 0)
  have hfun : (fun i => [comps.getD 0 0 != 0, comps.getD 1 0 != 0, comps.getD 2 0 != 0,
      comps.getD 3 0 != 0, comps.getD 4 0 != 0, comps.getD 5 0 != 0, comps.getD 6 0 != 0,
      comps.getD 7 0 != 0].getD i false) = (fun i => comps.getD i 0 != 0) := by
    funext i
    match i with
    | 0 | 1 | 2 | 3 | 4 | 5 | 6 | 7 => rfl
    | n + 8 =>
      have hn : comps[n + 8]? = none := by
        rw [List.getElem?_eq_none_iff]
        omega
      simp [List.getD, hn]
  rw [hfun] at key
  have hsp : findLongestSpan comps = findLongestSpanT (fun i => comps.getD i 0 != 0) := rfl
  obtain ⟨k1, k2⟩ := key
  rw [← hsp] at k1 k2
  constructor
  · intro hge
    obtain ⟨r1, r2, r3⟩ := k1 hge
    refine ⟨r1, ?_, ?_⟩
    · intro q l hrun
      obtain ⟨hq, -, hl⟩ := specZeroRunAt_bounds hrun
      exact r2 q hq l hl hrun
    · intro q hrun
      obtain ⟨hq, -, -⟩ := specZeroRunAt_bounds hrun
      exact r3 q hq hrun
  · intro hlt q l hrun
    obtain ⟨hq, -, hl⟩ := specZeroRunAt_bounds hrun
    exact k2 hlt q hq l hl hrun

/-- C2 witness: the scan on `[0x2001, 0x0db8, 0, 0, 1, 0, 0, 1]` (the spec's
scenario 2) chooses position 2 with span 2 — the earliest of the two
length-2 zero runs. -/
theorem C2_abbrev_placement_witness :
    findLongestSpan [0x2001, 0x0db8, 0, 0, 1, 0, 0, 1] = (2, 2) ∧
    specZeroRunAt [0x2001, 0x0db8, 0, 0, 1, 0, 0, 1] 2 2 ∧
    (∀ q, specZeroRunAt [0x2001, 0x0db8, 0, 0, 1, 0, 0, 1] q 2 → 2 ≤ q) := by
  have h := C2_abbrev_placement [0x2001, 0x0db8, 0, 0, 1, 0, 0, 1] (by decide)
  exact ⟨by decide, (h.1 (by decide)).1, fun q hq => (h.1 (by decide)).2.2 q hq⟩

/-! ## Claim C4: end-of-input component count and zero-run expansion -/

theorem writeAt_length (src : List Nat) (dst : List Nat) (i : Nat) :
    (writeAt dst i src).length = dst.length := by
  induction src generalizing dst i with
  | nil => rfl
  | cons v vs ih => simp [writeAt, ih]

theorem writeAt_getD (src : List Nat) (dst : List Nat) (t : Nat)
    (hle : t + src.length ≤ dst.length) (i : Nat) :
    (writeAt dst t src).getD i 0 =
      if t ≤ i ∧ i < t + src.length then src.getD (i - t) 0 else dst.getD i 0 := by
  induction src generalizing dst t with
  | nil =>
    simp only [writeAt, List.length_nil, Nat.add_zero]
    rw [if_neg (by omega)]
  | cons v vs ih =>
    simp only [List.length_cons] at hle
    have hlen : t < dst.length := by omega
    rw [show writeAt dst t (v :: vs) = writeAt (dst.set t v) (t + 1) vs from rfl]
    rw [ih (dst.set t v) (t + 1) (by simp only [List.length_set]; omega)]
    by_cases h1 : t + 1 ≤ i ∧ i < t + 1 + vs.length
    · rw [if_pos h1, if_pos (by simp only [List.length_cons]; omega)]
      have hsub : i - t = (i - (t + 1)) + 1 := by omega
      rw [hsub]
      rfl
    · rw [if_neg h1]
      by_cases h2 : i = t
      · subst h2
        rw [if_pos (by simp only [List.length_cons]; omega)]
        simp [List.getElem?_set_self hlen]
      · rw [if_neg (by simp only [List.length_cons]; omega)]
        simp [List.getElem?_set_ne (fun hc => h2 hc.symm)]

theorem C4_zero_run_expansion (st : ReaderState)
    (hlen : st.addressFull.components.length = 8)
    (hn : st.components ≤ 8) (hz : st.zerorun ≤ st.components) :
    (st.flagZerorun = false →
      ((ipv6_finalize st).1 = true ↔ st.components = 8) ∧
      ((ipv6_finalize st).1 = true → (ipv6_finalize st).2 = st) ∧
      (st.components ≠ 8 →
        (ipv6_finalize st).2.diags = st.diags ++ [DiagEvent.v6BadComponentCount])) ∧
    (st.flagZerorun = true →
      (ipv6_finalize st).1 = true ∧
      ∀ i < 8, (ipv6_finalize st).2.addressFull.components.getD i 0 =
        if i < st.zerorun then st.addressFull.components.getD i 0
        else if i < 8 - (st.components - st.zerorun) then 0
        else st.addressFull.components.getD (i - (8 - st.components)) 0) := by
  constructor
  · intro hflag
    simp only [ipv6_finalize, hflag, if_true, IPV6_NUM_COMPONENTS]
    by_cases hc : st.components < 8
    · rw [if_pos hc]
      refine ⟨by simp; omega, by simp, ?_⟩
      intro _
      simp [ipv6_error]
    · rw [if_neg hc]
      refine ⟨by simp; omega, fun _ => rfl, ?_⟩
      intro hne
      omega
  · intro hflag
    simp only [ipv6_finalize, hflag]
    rw [if_neg (by simp)]
    rw [if_neg (show ¬ ((st.components : Int) - (st.zerorun : Int) < 0 ∨
          (st.components : Int) - (st.zerorun : Int) > ((IPV6_NUM_COMPONENTS : Nat) : Int)) by
        simp only [IPV6_NUM_COMPONENTS]; omega)]
    rw [if_neg (show ¬ (((IPV6_NUM_COMPONENTS : Nat) : Int) -
            ((st.components : Int) - (st.zerorun : Int)) < 0 ∨
          ((IPV6_NUM_COMPONENTS : Nat) : Int) - ((st.components : Int) - (st.zerorun : Int)) +
            ((st.components : Int) - (st.zerorun : Int)) > ((IPV6_NUM_COMPONENTS : Nat) : Int)) by
        simp only [IPV6_NUM_COMPONENTS]; omega)]
    refine ⟨rfl, ?_⟩
    intro i hi
    simp only [IPV6_NUM_COMPONENTS]
    have hmc : (((st.components : Int) - (st.zerorun : Int)).toNat) =
        st.components - st.zerorun := by omega
    have htg : ((((8 : Nat) : Int)) - ((st.components : Int) - (st.zerorun : Int))).toNat =
        8 - (st.components - st.zerorun) := by omega
    rw [htg, hmc]
    have hdl : (List.drop st.zerorun st.addressFull.components).length = 8 - st.zerorun := by
      simp [hlen]
    have hlA : (List.take (st.components - st.zerorun)
        (List.drop st.zerorun st.addressFull.components)).length =
        st.components - st.zerorun := by
      rw [List.length_take, hdl]
      omega
    have hlB : (List.take st.zerorun st.addressFull.components).length = st.zerorun := by
      rw [List.length_take, hlen]
      omega
    have hinner_len : (writeAt (List.replicate 8 0) (8 - (st.components - st.zerorun))
        (List.take (st.components - st.zerorun)
          (List.drop st.zerorun st.addressFull.components))).length = 8 := by
      rw [writeAt_length]
      simp
    rw [writeAt_getD _ _ 0 (by rw [hinner_len, hlB]; omega) i]
    rw [writeAt_getD _ _ _ (by rw [List.length_replicate, hlA]; omega) i]
    rw [hlA, hlB]
    simp only [Nat.zero_add, Nat.sub_zero]
    split_ifs with h1 h2 h3 h4 h5 h6 h7 h8 <;>
      first
        | omega
        | (simp only [List.getD_eq_getElem?_getD]
           rw [List.getElem?_take_of_lt (by omega), List.getElem?_drop,
             show st.zerorun + (i - (8 - (st.components - st.zerorun))) =
               i - (8 - st.components) by omega])
        | (simp only [List.getD_eq_getElem?_getD]
           rw [List.getElem?_take_of_lt (by omega)])
        | (simp only [List.getD_eq_getElem?_getD]
           interval_cases i <;> rfl)

/-- C4 witness: a state with a zero run at index 1 and 3 committed
components `[7, 5, 6, _, _, _, _, _]` finalizes successfully to
`[7, 0, 0, 0, 0, 0, 5, 6]`; and without the zero-run flag a 3-component
state fails (3 ≠ 8). -/
theorem C4_zero_run_expansion_witness :
    ((ipv6_finalize ⟨⟨[7, 5, 6, 0, 0, 0, 0, 0], 0, 0, 0⟩, .STATE_NONE, 3, [], 0, 0, 1, 0, 0,
        true, false, false, []⟩).1 = true ∧
      ∀ i < 8, (ipv6_finalize ⟨⟨[7, 5, 6, 0, 0, 0, 0, 0], 0, 0, 0⟩, .STATE_NONE, 3, [], 0, 0, 1,
        0, 0, true, false, false, []⟩).2.addressFull.components.getD i 0 =
          ([7, 0, 0, 0, 0, 0, 5, 6] : List Nat).getD i 0) ∧
    ((ipv6_finalize ⟨⟨[7, 5, 6, 0, 0, 0, 0, 0], 0, 0, 0⟩, .STATE_NONE, 3, [], 0, 0, 0, 0, 0,
        false, false, false, []⟩).1 = true ↔ (3 : Nat) = 8) := by
  refine ⟨?_, ?_⟩
  · have h := (C4_zero_run_expansion ⟨⟨[7, 5, 6, 0, 0, 0, 0, 0], 0, 0, 0⟩, .STATE_NONE, 3, [],
        0, 0, 1, 0, 0, true, false, false, []⟩
        (by decide) (by decide) (by decide)).2 rfl
    refine ⟨h.1, ?_⟩
    intro i hi
    rw [h.2 i hi]
    interval_cases i <;> decide
  · exact ((C4_zero_run_expansion ⟨⟨[7, 5, 6, 0, 0, 0, 0, 0], 0, 0, 0⟩, .STATE_NONE, 3, [],
      0, 0, 0, 0, 0, false, false, false, []⟩ (by decide) (by decide) (by decide)).1 rfl).1

/-! C8 support: the bracket counter is the only reader-state field the zone
text can influence, and nothing except the `[`-validation reads it. -/

theorem ipv6_parse_component_bb (af cur comps tok sep b1 b2 zr v4e v4o fz fe fi dg) :
    ipv6_parse_component ⟨af, cur, comps, tok, sep, b1, zr, v4e, v4o, fz, fe, fi, dg⟩ =
      { ipv6_parse_component ⟨af, cur, comps, tok, sep, b2, zr, v4e, v4o, fz, fe, fi, dg⟩ with
        brackets := b1 } := by
  unfold ipv6_parse_component read_hexidecimal_token
  cases h : read_hex_loop 0 tok with
  | mk v err =>
    cases err <;> dsimp only [ipv6_error] <;> split_ifs <;> rfl

theorem ipv4_parse_component_bb (af cur comps tok sep b1 b2 zr v4e v4o fz fe fi dg) :
    ipv4_parse_component ⟨af, cur, comps, tok, sep, b1, zr, v4e, v4o, fz, fe, fi, dg⟩ =
      { ipv4_parse_component ⟨af, cur, comps, tok, sep, b2, zr, v4e, v4o, fz, fe, fi, dg⟩ with
        brackets := b1 } := by
  unfold ipv4_parse_component read_decimal_token
  cases h : read_decimal_loop 0 tok with
  | mk v err =>
    cases err <;> dsimp only [ipv6_error] <;> split_ifs <;> rfl

theorem ipvx_parse_component_bb (af cur comps tok sep b1 b2 zr v4e v4o fz fe fi dg) :
    ipvx_parse_component ⟨af, cur, comps, tok, sep, b1, zr, v4e, v4o, fz, fe, fi, dg⟩ =
      { ipvx_parse_component ⟨af, cur, comps, tok, sep, b2, zr, v4e, v4o, fz, fe, fi, dg⟩ with
        brackets := b1 } := by
  unfold ipvx_parse_component
  dsimp only
  split_ifs
  · exact ipv4_parse_component_bb af cur comps tok sep b1 b2 zr v4e v4o fz fe fi dg
  · exact ipv6_parse_component_bb af cur comps tok sep b1 b2 zr v4e v4o fz fe fi dg

theorem ipvx_parse_cidr_bb (af cur comps tok sep b1 b2 zr v4e v4o fz fe fi dg) :
    ipvx_parse_cidr ⟨af, cur, comps, tok, sep, b1, zr, v4e, v4o, fz, fe, fi, dg⟩ =
      { ipvx_parse_cidr ⟨af, cur, comps, tok, sep, b2, zr, v4e, v4o, fz, fe, fi, dg⟩ with
        brackets := b1 } := by
  unfold ipvx_parse_cidr read_decimal_token
  cases h : read_decimal_loop 0 tok with
  | mk v err =>
    cases err <;> dsimp only [ipv6_error] <;> split_ifs <;> rfl

theorem ipvx_parse_port_bb (af cur comps tok sep b1 b2 zr v4e v4o fz fe fi dg) :
    ipvx_parse_port ⟨af, cur, comps, tok, sep, b1, zr, v4e, v4o, fz, fe, fi, dg⟩ =
      { ipvx_parse_port ⟨af, cur, comps, tok, sep, b2, zr, v4e, v4o, fz, fe, fi, dg⟩ with
        brackets := b1 } := by
  unfold ipvx_parse_port read_decimal_token
  cases h : read_decimal_loop 0 tok with
  | mk v err =>
    cases err <;> dsimp only [ipv6_error] <;> split_ifs <;> rfl

/-- Two states that agree on everything but the bracket counter take the same
transition (up to the bracket counter), provided neither side errors (the
`[`-validation in the initial state is the only bracket-dependent branch). -/
theorem ipv6_state_transition_erase (af cur comps tok sep b1 b2 zr v4e v4o fz fe fi dg)
    (ev : EventClass) (c : Char)
    (h1 : (ipv6_state_transition ⟨af, cur, comps, tok, sep, b1, zr, v4e, v4o, fz, fe, fi, dg⟩
      ev c).flagError = false)
    (h2 : (ipv6_state_transition ⟨af, cur, comps, tok, sep, b2, zr, v4e, v4o, fz, fe, fi, dg⟩
      ev c).flagError = false) :
    eraseBrackets
        (ipv6_state_transition ⟨af, cur, comps, tok, sep, b1, zr, v4e, v4o, fz, fe, fi, dg⟩ ev c) =
      eraseBrackets
        (ipv6_state_transition ⟨af, cur, comps, tok, sep, b2, zr, v4e, v4o, fz, fe, fi, dg⟩ ev c) := by
  cases cur <;> cases ev <;>
    first
      | rfl
      | (dsimp only [ipv6_state_transition] at h1 h2 ⊢
         first
           | (split_ifs at h1 h2 ⊢ <;>
               first
                 | rfl
                 | (rw [ipvx_parse_component_bb _ _ _ _ _ _ b2]; rfl)
                 | (rw [ipvx_parse_cidr_bb _ _ _ _ _ _ b2]; rfl)
                 | (rw [ipvx_parse_port_bb _ _ _ _ _ _ b2]; rfl)
                 | (simp_all [ipv6_error]; done))
           | (first
               | rfl
               | (rw [ipvx_parse_component_bb _ _ _ _ _ _ b2]; rfl)
               | (rw [ipvx_parse_cidr_bb _ _ _ _ _ _ b2]; rfl)
               | (rw [ipvx_parse_port_bb _ _ _ _ _ _ b2]; rfl)))

set_option maxHeartbeats 1000000 in
/-- Bracket-insensitivity of one driver step, given neither side errors. -/
theorem ipv6_step_erase (s₁ s₂ : ReaderState) (hR : eraseBrackets s₁ = eraseBrackets s₂)
    (c : Char) (h₁ : (ipv6_step s₁ c).flagError = false)
    (h₂ : (ipv6_step s₂ c).flagError = false) :
    eraseBrackets (ipv6_step s₁ c) = eraseBrackets (ipv6_step s₂ c) := by
  obtain ⟨af₁, cur₁, comps₁, tok₁, sep₁, br₁, zr₁, v4e₁, v4o₁, fz₁, fe₁, fi₁, dg₁⟩ := s₁
  obtain ⟨af₂, cur₂, comps₂, tok₂, sep₂, br₂, zr₂, v4e₂, v4o₂, fz₂, fe₂, fi₂, dg₂⟩ := s₂
  simp only [eraseBrackets, ReaderState.mk.injEq] at hR
  obtain ⟨rfl, rfl, rfl, rfl, rfl, -, rfl, rfl, rfl, rfl, rfl, rfl, rfl⟩ := hR
  unfold ipv6_step at h₁ h₂ ⊢
  split_ifs at h₁ h₂ ⊢ <;>
    first
      | rfl
      | (exact ipv6_state_transition_erase _ _ _ _ _ _ _ _ _ _ _ _ _ _ _ _ h₁ h₂)

/-- Bracket-insensitivity of the scanning loop (both runs error-free). -/
theorem ipv6_run_erase (xs : List Char) (s₁ s₂ : ReaderState)
    (hR : eraseBrackets s₁ = eraseBrackets s₂)
    (h₁ : (ipv6_run s₁ xs).flagError = false) (h₂ : (ipv6_run s₂ xs).flagError = false) :
    eraseBrackets (ipv6_run s₁ xs) = eraseBrackets (ipv6_run s₂ xs) := by
  induction xs generalizing s₁ s₂ with
  | nil => exact hR
  | cons c cs ih =>
    by_cases hc : c = nulChar
    · simp only [ipv6_run, if_pos hc]
      exact hR
    · simp only [ipv6_run, if_neg hc] at h₁ h₂ ⊢
      by_cases e₁ : (ipv6_step s₁ c).flagError
      · rw [if_pos e₁] at h₁
        rw [e₁] at h₁
        exact absurd h₁ (by simp)
      · have e₁' : (ipv6_step s₁ c).flagError = false := by simpa using e₁
        by_cases e₂ : (ipv6_step s₂ c).flagError
        · rw [if_pos e₂] at h₂
          rw [e₂] at h₂
          exact absurd h₂ (by simp)
        · have e₂' : (ipv6_step s₂ c).flagError = false := by simpa using e₂
          rw [if_neg e₁] at h₁ ⊢
          rw [if_neg e₂] at h₂ ⊢
          exact ih _ _ (ipv6_step_erase s₁ s₂ hR c e₁' e₂') h₁ h₂

/-- Splitting the scanning loop at an error-free, NUL-free front segment. -/
theorem ipv6_run_append (xs ys : List Char) (st : ReaderState) (hx : nulChar ∉ xs)
    (hst : st.flagError = false) :
    ipv6_run st (xs ++ ys) =
      if (ipv6_run st xs).flagError then ipv6_run st xs
      else ipv6_run (ipv6_run st xs) ys := by
  induction xs generalizing st with
  | nil =>
    simp only [List.nil_append, ipv6_run]
    rw [if_neg (by rw [hst]; simp)]
  | cons c cs ih =>
    have hc : c ≠ nulChar := fun h => hx (h ▸ List.mem_cons_self c cs)
    simp only [List.cons_append, ipv6_run, if_neg hc]
    by_cases e : (ipv6_step st c).flagError
    · rw [if_pos e, if_pos e, if_pos (by rw [e]) ]
    · have e' : (ipv6_step st c).flagError = false := by simpa using e
      rw [if_neg e, if_neg e]
      exact ih (ipv6_step st c) (fun h => hx (List.mem_cons_of_mem c h)) e'

/-- A zone byte processed in the interface state changes nothing except,
possibly, the bracket counter. -/
theorem zoneByte_step (s : ReaderState) (c : Char) (hzb : zoneByte c)
    (hcur : s.current = .STATE_IFACE) :
    eraseBrackets (ipv6_step s c) = eraseBrackets s ∧
      (ipv6_step s c).current = .STATE_IFACE ∧
      (ipv6_step s c).flagError = s.flagError := by
  obtain ⟨hclass, hrb, hsp, htab, hnl, hcr, hnul⟩ := hzb
  obtain ⟨af, cur, comps, tok, sep, br, zr, v4e, v4o, fz, fe, fi, dg⟩ := s
  cases hcur
  unfold ipv6_step
  split_ifs with h1 h2 h3 h4 h5 h6 h7 h8 h9 <;>
    first
      | (refine ⟨rfl, rfl, rfl⟩)
      | simp_all

/-- A clean zone segment consumed in the interface state leaves everything
but the bracket counter unchanged. -/
theorem zone_run (z : List Char) (s : ReaderState) (hz : ZoneClean z)
    (hcur : s.current = .STATE_IFACE) (he : s.flagError = false) :
    eraseBrackets (ipv6_run s z) = eraseBrackets s := by
  induction z generalizing s with
  | nil => rfl
  | cons c cs ih =>
    have hzb := hz c (List.mem_cons_self c cs)
    have hcnul : c ≠ nulChar := hzb.2.2.2.2.2.2
    obtain ⟨h1, h2, h3⟩ := zoneByte_step s c hzb hcur
    simp only [ipv6_run, if_neg hcnul]
    rw [if_neg (by rw [h3, he]; simp)]
    rw [ih (ipv6_step s c) (fun x hx => hz x (List.mem_cons_of_mem c hx)) h2 (by rw [h3, he])]
    exact h1

set_option maxHeartbeats 1000000 in
theorem ipv6_state_transition_inv (s : ReaderState) (ev : EventClass) (c : Char)
    (h : InvState s) : InvState (ipv6_state_transition s ev c) := by
  obtain ⟨hz, he⟩ := h
  obtain ⟨af, cur, comps, tok, sep, br, zr, v4e, v4o, fz, fe, fi, dg⟩ := s
  cases cur <;> cases ev <;>
    first
      | (exact absurd rfl hz)
      | (exact ⟨hz, he⟩)
      | (dsimp only [ipv6_state_transition]
         first
           | (split_ifs <;> refine ⟨by simp [ipv6_error], fun hfe => by simp_all [ipv6_error]⟩)
           | (refine ⟨by simp [ipv6_error], fun hfe => by simp_all [ipv6_error]⟩))

theorem ipv6_step_inv (s : ReaderState) (c : Char) (h : InvState s) :
    InvState (ipv6_step s c) := by
  unfold ipv6_step
  split_ifs <;>
    first
      | exact ipv6_state_transition_inv _ _ _ h
      | exact ⟨by simp [ipv6_error], by simp [ipv6_error]⟩

theorem ipv6_run_inv (xs : List Char) (s : ReaderState) (h : InvState s) :
    InvState (ipv6_run s xs) := by
  induction xs generalizing s with
  | nil => exact h
  | cons c cs ih =>
    by_cases hc : c = nulChar
    · simpa only [ipv6_run, if_pos hc] using h
    · simp only [ipv6_run, if_neg hc]
      by_cases e : (ipv6_step s c).flagError
      · rw [if_pos e]
        exact ipv6_step_inv s c h
      · rw [if_neg e]
        exact ih _ (ipv6_step_inv s c h)

/-- Every non-erroring path on `%` lands in `STATE_IFACE` (the
`CHANGE_STATE(EC_IFACE)` typo included: `EC_IFACE` and `STATE_IFACE` share
the value 5). -/
theorem ipv6_step_pct_iface (s : ReaderState) (hinv : InvState s)
    (he : (ipv6_step s '%').flagError = false) :
    (ipv6_step s '%').current = .STATE_IFACE := by
  obtain ⟨hz, hee⟩ := hinv
  have hstep : ipv6_step s '%' = ipv6_state_transition s .EC_IFACE '%' := rfl
  rw [hstep] at he ⊢
  obtain ⟨af, cur, comps, tok, sep, br, zr, v4e, v4o, fz, fe, fi, dg⟩ := s
  cases cur <;>
    first
      | (exact absurd rfl hz)
      | rfl
      | (dsimp only [ipv6_state_transition, ipv6_error] at he
         simp at he)
      | (dsimp only [ipv6_state_transition] at he ⊢
         exact absurd rfl (hee he))

theorem ipv6_state_transition_ws_bb (af cur comps tok sep b1 b2 zr v4e v4o fz fe fi dg)
    (c : Char) :
    ipv6_state_transition ⟨af, cur, comps, tok, sep, b1, zr, v4e, v4o, fz, fe, fi, dg⟩
        .EC_WHITESPACE c =
      { ipv6_state_transition ⟨af, cur, comps, tok, sep, b2, zr, v4e, v4o, fz, fe, fi, dg⟩
          .EC_WHITESPACE c with brackets := b1 } := by
  cases cur <;>
    first
      | rfl
      | (dsimp only [ipv6_state_transition]
         rw [ipvx_parse_component_bb af _ comps tok sep b1 b2]
         try rfl)
      | (dsimp only [ipv6_state_transition]
         rw [ipvx_parse_cidr_bb af _ comps tok sep b1 b2]
         try rfl)
      | (dsimp only [ipv6_state_transition]
         rw [ipvx_parse_port_bb af _ comps tok sep b1 b2]
         try rfl)

theorem ipv6_finalize_bb (af cur comps tok sep b1 b2 zr v4e v4o fz fe fi dg) :
    ipv6_finalize ⟨af, cur, comps, tok, sep, b1, zr, v4e, v4o, fz, fe, fi, dg⟩ =
      ((ipv6_finalize ⟨af, cur, comps, tok, sep, b2, zr, v4e, v4o, fz, fe, fi, dg⟩).1,
        { (ipv6_finalize ⟨af, cur, comps, tok, sep, b2, zr, v4e, v4o, fz, fe, fi, dg⟩).2 with
          brackets := b1 }) := by
  unfold ipv6_finalize
  dsimp only [ipv6_error]
  split_ifs <;> rfl

/-- The post-loop finish (end-of-input whitespace, embed check, zero-run
expansion) does not depend on the bracket counter. -/
theorem ipv6_parse_finish_erase (s₁ s₂ : ReaderState)
    (hR : eraseBrackets s₁ = eraseBrackets s₂) :
    ipv6_parse_finish s₁ = ipv6_parse_finish s₂ := by
  obtain ⟨af₁, cur₁, comps₁, tok₁, sep₁, br₁, zr₁, v4e₁, v4o₁, fz₁, fe₁, fi₁, dg₁⟩ := s₁
  obtain ⟨af₂, cur₂, comps₂, tok₂, sep₂, br₂, zr₂, v4e₂, v4o₂, fz₂, fe₂, fi₂, dg₂⟩ := s₂
  simp only [eraseBrackets, ReaderState.mk.injEq] at hR
  obtain ⟨rfl, rfl, rfl, rfl, rfl, -, rfl, rfl, rfl, rfl, rfl, rfl, rfl⟩ := hR
  unfold ipv6_parse_finish
  rw [ipv6_state_transition_ws_bb af₁ cur₁ comps₁ tok₁ sep₁ br₁ br₂]
  generalize ipv6_state_transition
    ⟨af₁, cur₁, comps₁, tok₁, sep₁, br₂, zr₁, v4e₁, v4o₁, fz₁, fe₁, fi₁, dg₁⟩
    .EC_WHITESPACE ' ' = t
  obtain ⟨taf, tcur, tcomps, ttok, tsep, tbr, tzr, tv4e, tv4o, tfz, tfe, tfi, tdg⟩ := t
  dsimp only
  by_cases hfi : tfi = true
  · rw [if_pos hfi, if_pos hfi]
    by_cases hv : tv4o = 4
    · rw [if_neg (not_not_intro hv), if_neg (not_not_intro hv)]
      dsimp only
      by_cases hfe : tfe = true
      · rw [if_pos hfe, if_pos hfe]
      · rw [if_neg hfe, if_neg hfe]
        rw [ipv6_finalize_bb _ _ _ _ _ _ tbr]
    · rw [if_pos hv, if_pos hv]
      simp [ipv6_error]
  · rw [if_neg hfi, if_neg hfi]
    by_cases hfe : tfe = true
    · rw [if_pos hfe, if_pos hfe]
    · rw [if_neg hfe, if_neg hfe]
      rw [ipv6_finalize_bb _ _ _ _ _ _ tbr]

theorem ipv6_compare_components_self (xs : List Nat) : ipv6_compare_components xs xs = 0 := by
  induction xs with
  | nil => rfl
  | cons x xs ih => simp [ipv6_compare_components, ih]

theorem ipv6_compare_self (a : Ipv6AddressFull) : ipv6_compare a a = 0 := by
  have hu : ∀ n : Nat, u32sub n n = 0 := by
    intro n
    unfold u32sub
    have h : n % 4294967296 < 4294967296 := Nat.mod_lt _ (by norm_num)
    omega
  unfold ipv6_compare
  simp [ipv6_compare_components_self, hu, toInt32]

/-- Acceptance of a parse decomposes: the scanner ran without error and the
output address is the finish of the scanner state. -/
theorem ipv6_from_str_accept (input : List Char) (h : (ipv6_from_str input).1 = true) :
    (ipv6_run {} input).flagError = false ∧
    (ipv6_from_str input).2 = (ipv6_parse_finish (ipv6_run {} input)).2.1 := by
  unfold ipv6_from_str ipv6_from_str_diag at h ⊢
  by_cases hc1 : input = [] ∨ input.headD nulChar = nulChar
  · rw [if_pos hc1] at h
    simp at h
  · rw [if_neg hc1] at h ⊢
    by_cases hc2 : input.length > IPV6_STRING_SIZE
    · rw [if_pos hc2] at h
      simp at h
    · rw [if_neg hc2] at h ⊢
      dsimp only at h ⊢
      by_cases hc3 : (ipv6_run {} input).flagError = true
      · rw [if_pos hc3] at h
        simp at h
      · have hc3' : (ipv6_run {} input).flagError = false := by simpa using hc3
        rw [if_neg hc3] at h ⊢
        exact ⟨hc3', rfl⟩

theorem ipv6_run_singleton (s : ReaderState) (c : Char) :
    ipv6_run s [c] = if c = nulChar then s else ipv6_step s c := by
  simp only [ipv6_run]
  split_ifs <;> rfl

/-- C8: two accepted inputs that differ only in the bytes of the zone
segment parse to equal structured addresses, which compare equal. -/
theorem C8_zone_bytes_discarded (pre z₁ z₂ post : List Char)
    (hz₁ : ZoneClean z₁) (hz₂ : ZoneClean z₂) (hpre : nulChar ∉ pre)
    (h₁ : (ipv6_from_str (pre ++ '%' :: (z₁ ++ post))).1 = true)
    (h₂ : (ipv6_from_str (pre ++ '%' :: (z₂ ++ post))).1 = true) :
    (ipv6_from_str (pre ++ '%' :: (z₁ ++ post))).2 =
      (ipv6_from_str (pre ++ '%' :: (z₂ ++ post))).2 ∧
    ipv6_compare (ipv6_from_str (pre ++ '%' :: (z₁ ++ post))).2
      (ipv6_from_str (pre ++ '%' :: (z₂ ++ post))).2 = 0 := by
  have hassoc₁ : pre ++ '%' :: (z₁ ++ post) = (pre ++ ['%']) ++ (z₁ ++ post) := by simp
  have hassoc₂ : pre ++ '%' :: (z₂ ++ post) = (pre ++ ['%']) ++ (z₂ ++ post) := by simp
  rw [hassoc₁] at h₁ ⊢
  rw [hassoc₂] at h₂ ⊢
  obtain ⟨he₁, hres₁⟩ := ipv6_from_str_accept _ h₁
  obtain ⟨he₂, hres₂⟩ := ipv6_from_str_accept _ h₂
  have hnulA : nulChar ∉ pre ++ ['%'] := by
    intro hmem
    rcases List.mem_append.1 hmem with hm | hm
    · exact hpre hm
    · simp only [List.mem_singleton] at hm
      exact absurd hm (by decide)
  have hsplit₁ := ipv6_run_append (pre ++ ['%']) (z₁ ++ post) {} hnulA rfl
  have hsplit₂ := ipv6_run_append (pre ++ ['%']) (z₂ ++ post) {} hnulA rfl
  by_cases hse : (ipv6_run {} (pre ++ ['%'])).flagError = true
  · rw [hsplit₁, if_pos hse] at he₁
    rw [hse] at he₁
    exact absurd he₁ (by simp)
  have hse' : (ipv6_run {} (pre ++ ['%'])).flagError = false := by simpa using hse
  rw [hsplit₁, if_neg hse] at he₁ hres₁
  rw [hsplit₂, if_neg hse] at he₂ hres₂
  -- the state after `pre ++ "%"` is in the interface state
  have hsp := ipv6_run_append pre ['%'] {} hpre rfl
  by_cases hpe : (ipv6_run {} pre).flagError = true
  · rw [hsp, if_pos hpe] at hse'
    rw [hse'] at hpe
    exact absurd hpe (by simp)
  have hpe' : (ipv6_run {} pre).flagError = false := by simpa using hpe
  have hsstar2 : ipv6_run {} (pre ++ ['%']) = ipv6_step (ipv6_run {} pre) '%' := by
    rw [hsp, if_neg hpe, ipv6_run_singleton, if_neg (by decide)]
  have hinv0 : InvState ({} : ReaderState) := ⟨by decide, fun _ => by decide⟩
  have hcur : (ipv6_run {} (pre ++ ['%'])).current = .STATE_IFACE := by
    rw [hsstar2]
    exact ipv6_step_pct_iface _ (ipv6_run_inv pre {} hinv0) (hsstar2 ▸ hse')
  -- the zone segments change nothing but the bracket counter
  have hzr₁ : eraseBrackets (ipv6_run (ipv6_run {} (pre ++ ['%'])) z₁) =
      eraseBrackets (ipv6_run {} (pre ++ ['%'])) :=
    zone_run z₁ _ hz₁ hcur hse'
  have hzr₂ : eraseBrackets (ipv6_run (ipv6_run {} (pre ++ ['%'])) z₂) =
      eraseBrackets (ipv6_run {} (pre ++ ['%'])) :=
    zone_run z₂ _ hz₂ hcur hse'
  have hzf₁ : (ipv6_run (ipv6_run {} (pre ++ ['%'])) z₁).flagError = false := by
    have h := congrArg ReaderState.flagError hzr₁
    simp only [eraseBrackets] at h
    rw [h]
    exact hse'
  have hzf₂ : (ipv6_run (ipv6_run {} (pre ++ ['%'])) z₂).flagError = false := by
    have h := congrArg ReaderState.flagError hzr₂
    simp only [eraseBrackets] at h
    rw [h]
    exact hse'
  have hznul₁ : nulChar ∉ z₁ := fun hmem => (hz₁ _ hmem).2.2.2.2.2.2 rfl
  have hznul₂ : nulChar ∉ z₂ := fun hmem => (hz₂ _ hmem).2.2.2.2.2.2 rfl
  have hzs₁ := ipv6_run_append z₁ post (ipv6_run {} (pre ++ ['%'])) hznul₁ hse'
  have hzs₂ := ipv6_run_append z₂ post (ipv6_run {} (pre ++ ['%'])) hznul₂ hse'
  rw [hzs₁, if_neg (by rw [hzf₁]; simp)] at he₁ hres₁
  rw [hzs₂, if_neg (by rw [hzf₂]; simp)] at he₂ hres₂
  -- simulate the two runs over `post`
  have hRz : eraseBrackets (ipv6_run (ipv6_run {} (pre ++ ['%'])) z₁) =
      eraseBrackets (ipv6_run (ipv6_run {} (pre ++ ['%'])) z₂) := by
    rw [hzr₁, hzr₂]
  have hRt := ipv6_run_erase post _ _ hRz he₁ he₂
  have hfin := ipv6_parse_finish_erase _ _ hRt
  have heq : (ipv6_from_str ((pre ++ ['%']) ++ (z₁ ++ post))).2 =
      (ipv6_from_str ((pre ++ ['%']) ++ (z₂ ++ post))).2 := by
    rw [hres₁, hres₂, hfin]
  exact ⟨heq, by rw [heq]; exact ipv6_compare_self _⟩

/-- C8 witness: `"::1%abc"` and `"::1%12"` differ only in the zone bytes;
both parse successfully and the resulting addresses compare equal. -/
theorem C8_zone_bytes_discarded_witness :
    (ipv6_from_str ("::1".data ++ '%' :: ("abc".data ++ []))).1 = true ∧
    (ipv6_from_str ("::1".data ++ '%' :: ("12".data ++ []))).1 = true ∧
    ipv6_compare (ipv6_from_str ("::1".data ++ '%' :: ("abc".data ++ []))).2
      (ipv6_from_str ("::1".data ++ '%' :: ("12".data ++ []))).2 = 0 :=
  ⟨by decide, by decide,
    (C8_zone_bytes_discarded "::1".data "abc".data "12".data []
      (by decide) (by decide) (by decide) (by decide) (by decide)).2⟩
